import Mathlib

/-
  Verification of the FreeIPA DNS-record reconciliation module
  (lib/ansible/modules/identity/ipa/ipa_dnsrecord.py).

  The module's pure request-construction functions are embedded directly.
  The remote IPA server and the shared client helper `get_diff` (from
  ansible.module_utils.ipa, outside this repository's sources) are modelled
  from the specification.  Python dicts carrying string fields are embedded
  as association lists of string pairs; a string's Python truthiness is
  non-emptiness.
-/

namespace IpaDnsrecord

/-- Association-list lookup by key, first match wins; embeds `dict.get` for
the field mappings used by the module (all of which have distinct keys). -/
def alistLookup (k : String) : List (String × String) → Option String
  | [] => none
  | (k', v) :: rest => if k' = k then some v else alistLookup k rest

/-- Insert-or-overwrite of a single field, embedding `dict.update` for one
key: an existing binding is overwritten in place, a new one is appended. -/
def upsert (r : List (String × String)) (k v : String) : List (String × String) :=
  if k ∈ r.map Prod.fst then
    r.map (fun p => if p.1 = k then (k, v) else p)
  else r ++ [(k, v)]

/-- `dict.update` with a whole mapping: each field of `item` is upserted. -/
def updateAll (r : List (String × String)) (item : List (String × String)) :
    List (String × String) :=
  item.foldl (fun acc p => upsert acc p.1 p.2) r

/-- The `module_dnsrecord` dict built in `ensure`:
`dict(record_type=..., record_ip=...)`. -/
structure ModuleDnsrecord where
  record_type : String
  record_ip : String
  deriving DecidableEq, Repr

/-- `get_dnsrecord_dict(details)`: the storage-field translation.  Mirrors
the Python truthiness test `details['record_ip']`: an empty string is falsy,
so no address field is emitted for it. -/
def get_dnsrecord_dict (details : ModuleDnsrecord) : List (String × String) :=
  if details.record_type = "A" ∧ details.record_ip ≠ "" then
    [("arecord", details.record_ip)]
  else if details.record_type = "AAAA" ∧ details.record_ip ≠ "" then
    [("aaaarecord", details.record_ip)]
  else []

/-- The request item built by `DNSRecordIPAClient.dnsrecord_add`:
`idnsname` plus the add-time (part) field convention.  No truthiness test
on the address here, unlike `get_dnsrecord_dict`. -/
def dnsrecord_add_item (record_name : String) (details : ModuleDnsrecord) :
    List (String × String) :=
  ("idnsname", record_name) ::
    (if details.record_type = "A" then
      [("a_part_ip_address", details.record_ip)]
    else if details.record_type = "AAAA" then
      [("aaaa_part_ip_address", details.record_ip)]
    else [])

/-- The request item built by `DNSRecordIPAClient.dnsrecord_mod`:
`get_dnsrecord_dict(details)` then `item.update(idnsname=record_name)`. -/
def dnsrecord_mod_item (record_name : String) (details : ModuleDnsrecord) :
    List (String × String) :=
  get_dnsrecord_dict details ++ [("idnsname", record_name)]

/-- The request item built by `DNSRecordIPAClient.dnsrecord_del`:
`get_dnsrecord_dict(details)` then `item.update(idnsname=record_name)`. -/
def dnsrecord_del_item (record_name : String) (details : ModuleDnsrecord) :
    List (String × String) :=
  get_dnsrecord_dict details ++ [("idnsname", record_name)]

/-- Modelled from the spec: `IPAClient.get_diff` lives in
`ansible.module_utils.ipa`, which is not among this repository's sources.
Per the spec's diff algorithm, each `(field, value)` of the desired mapping
`module_data` is reported when the field is absent from the current record
`ipa_data` or bound there to a different value; fields present only in
`ipa_data` are never reported. -/
def get_diff (ipa_data module_data : List (String × String)) : List String :=
  module_data.filterMap (fun fv =>
    match alistLookup fv.1 ipa_data with
    | none => some fv.1
    | some w => if w = fv.2 then none else some fv.1)

/-- `get_dnsrecord_diff(client, ipa_dnsrecord, module_dnsrecord)`; the
client argument carries no state relevant to the diff. -/
def get_dnsrecord_diff (ipa_dnsrecord : List (String × String))
    (module_dnsrecord : ModuleDnsrecord) : List String :=
  get_diff ipa_dnsrecord (get_dnsrecord_dict module_dnsrecord)

/-- The remote server's state for the one `(zone_name, record_name)` pair an
invocation addresses: `none` when no such record exists. -/
abbrev Server : Type := Option (List (String × String))

/-- Modelled from the spec: `dnsrecord_find` returns the record's field
mapping, or an empty (hence Python-falsy) mapping when no record exists. -/
def dnsrecord_find_result (s : Server) : List (String × String) :=
  s.getD []

/-- Modelled from the spec: the server translates add-time part fields to
its storage field convention (`a_part_ip_address` to `arecord`,
`aaaa_part_ip_address` to `aaaarecord`). -/
def storageFieldOfAddField (f : String) : String :=
  if f = "a_part_ip_address" then "arecord"
  else if f = "aaaa_part_ip_address" then "aaaarecord"
  else f

/-- Modelled from the spec: `dnsrecord_add` stores the supplied item under
the storage field convention. -/
def server_add (item : List (String × String)) : Server :=
  some (item.map (fun p => (storageFieldOfAddField p.1, p.2)))

/-- Modelled from the spec: `dnsrecord_mod` overwrites the supplied fields
of the existing record, leaving other fields in place. -/
def server_mod (s : Server) (item : List (String × String)) : Server :=
  match s with
  | none => none
  | some r => some (updateAll r item)

/-- Modelled from the spec: `dnsrecord_del` removes the record. -/
def server_del : Server := none

/-- One remote client call, as observable at the client boundary. -/
inductive Call where
  | login
  | find (zone_name record_name : String)
  | add (zone_name : String) (item : List (String × String))
  | mod (zone_name : String) (item : List (String × String))
  | del (zone_name : String) (item : List (String × String))
  deriving DecidableEq, Repr

/-- Whether a call mutates the server (add, modify or delete). -/
def Call.isMut : Call → Bool
  | .add _ _ => true
  | .mod _ _ => true
  | .del _ _ => true
  | _ => false

/-- The mutating calls of a trace, in order. -/
def mutatingCalls (cs : List Call) : List Call :=
  cs.filter Call.isMut

/-- The module parameters consumed by `ensure` (the entry point's argument
spec constrains `record_type` to A and AAAA and `state` to present and
absent, but `ensure` itself reads them as plain strings). -/
structure Params where
  zone_name : String
  record_name : String
  record_type : String
  record_ip : String
  state : String
  check_mode : Bool
  deriving DecidableEq, Repr

/-- The observable outcome of one `ensure` run: the returned `changed` flag
and record, the server state it leaves behind, and the client calls issued. -/
structure EnsureResult where
  changed : Bool
  record : List (String × String)
  server : Server
  calls : List Call
  deriving Repr

/-- `ensure(module, client)` embedded over the server model: initial
`dnsrecord_find`, the present and absent transition logic with the
check-mode guards, then the unconditional final `dnsrecord_find`. -/
def ensure (p : Params) (s : Server) : EnsureResult :=
  let zone_name := p.zone_name
  let record_name := p.record_name
  let state := p.state
  let ipa_dnsrecord := dnsrecord_find_result s
  let module_dnsrecord : ModuleDnsrecord := ⟨p.record_type, p.record_ip⟩
  let step : Bool × Server × List Call :=
    if state = "present" then
      if ipa_dnsrecord.isEmpty then
        if p.check_mode then (true, s, [])
        else
          let item := dnsrecord_add_item record_name module_dnsrecord
          (true, server_add item, [Call.add zone_name item])
      else
        let diff := get_dnsrecord_diff ipa_dnsrecord module_dnsrecord
        if diff.length > 0 then
          if p.check_mode then (true, s, [])
          else
            let item := dnsrecord_mod_item record_name module_dnsrecord
            (true, server_mod s item, [Call.mod zone_name item])
        else (false, s, [])
    else
      if ipa_dnsrecord.isEmpty then (false, s, [])
      else
        if p.check_mode then (true, s, [])
        else
          let item := dnsrecord_del_item record_name module_dnsrecord
          (true, server_del, [Call.del zone_name item])
  { changed := step.1
    record := dnsrecord_find_result step.2.1
    server := step.2.1
    calls := Call.find zone_name record_name ::
      (step.2.2 ++ [Call.find zone_name record_name]) }

/-- The complete remote-call chain of one invocation of `main`:
`client.login` followed by the calls `ensure` issues. -/
def invocation_calls (p : Params) (s : Server) : List Call :=
  Call.login :: (ensure p s).calls

/-- A fault assignment for the remote boundary: `faults c = some e` means
call `c` raises an exception with message `e`; `none` means it succeeds. -/
def Faults : Type := Call → Option String

/-- Issue the planned calls in order, stopping at the first one that
raises; the raised message propagates unmodified. -/
def runCalls (faults : Faults) : List Call → Except String Unit
  | [] => Except.ok ()
  | c :: rest =>
    match faults c with
    | some e => Except.error e
    | none => runCalls faults rest

/-- The process-level outcome `main` reports: `module.exit_json` with the
changed flag and record, or `module.fail_json` with the error message. -/
inductive Outcome where
  | exitJson (changed : Bool) (record : List (String × String))
  | failJson (msg : String)
  deriving DecidableEq, Repr

/-- `main`'s try/except around `login` and `ensure`: if any remote call of
the invocation raises, the exception reaches the handler and is reported
via `fail_json(msg=str(e))` with no changed/record payload; otherwise
`exit_json(changed=..., record=...)` reports `ensure`'s result. -/
def main_outcome (faults : Faults) (p : Params) (s : Server) : Outcome :=
  match runCalls faults (invocation_calls p s) with
  | Except.error e => Outcome.failJson e
  | Except.ok _ => Outcome.exitJson (ensure p s).changed (ensure p s).record

/-- Lookup distributes over append: the left list is consulted first. -/
theorem alistLookup_append (k : String) (xs ys : List (String × String)) :
    alistLookup k (xs ++ ys) =
      match alistLookup k xs with
      | some v => some v
      | none => alistLookup k ys := by
  induction xs with
  | nil => simp [alistLookup]
  | cons a xs ih =>
    by_cases h : a.1 = k
    · simp [alistLookup, h]
    · simp [alistLookup, h, ih]

/-- Lookup fails exactly when the key is absent from the key column. -/
theorem alistLookup_eq_none_iff (k : String) (r : List (String × String)) :
    alistLookup k r = none ↔ k ∉ r.map Prod.fst := by
  induction r with
  | nil => simp [alistLookup]
  | cons a r ih =>
    by_cases h : a.1 = k
    · simp [alistLookup, h]
    · simp [alistLookup, h, ih, Ne.symm h]

/-- Overwriting the binding of a key present in the key column makes lookup
of that key return the new value. -/
theorem alistLookup_map_overwrite_self (r : List (String × String)) (k v : String)
    (h : k ∈ r.map Prod.fst) :
    alistLookup k (r.map (fun p => if p.1 = k then (k, v) else p)) = some v := by
  induction r with
  | nil => simp at h
  | cons a r ih =>
    obtain ⟨f, w⟩ := a
    by_cases hf : f = k
    · subst hf
      simp only [List.map_cons, if_pos rfl]
      simp [alistLookup]
    · have h' : k ∈ r.map Prod.fst := by
        simp only [List.map_cons] at h
        rcases List.mem_cons.mp h with h1 | h1
        · exact absurd h1.symm hf
        · exact h1
      simp only [List.map_cons, if_neg hf]
      rw [alistLookup, if_neg hf]
      exact ih h'

/-- Overwriting the binding of one key does not disturb lookups of another. -/
theorem alistLookup_map_overwrite (r : List (String × String)) (k k' v : String)
    (hne : k' ≠ k) :
    alistLookup k (r.map (fun p => if p.1 = k' then (k', v) else p)) =
      alistLookup k r := by
  induction r with
  | nil => simp
  | cons a r ih =>
    obtain ⟨f, w⟩ := a
    by_cases ha : f = k'
    · subst ha
      rw [List.map_cons, if_pos (rfl : (f, w).1 = f)]
      rw [alistLookup, alistLookup, if_neg hne, if_neg hne]
      exact ih
    · simp only [List.map_cons, if_neg ha]
      by_cases hak : f = k
      · rw [alistLookup, alistLookup, if_pos hak, if_pos hak]
      · rw [alistLookup, alistLookup, if_neg hak, if_neg hak]
        exact ih

/-- Looking up the key just upserted yields the upserted value. -/
theorem alistLookup_upsert_self (r : List (String × String)) (k v : String) :
    alistLookup k (upsert r k v) = some v := by
  unfold upsert
  split_ifs with h
  · exact alistLookup_map_overwrite_self r k v h
  · rw [alistLookup_append]
    have hr : alistLookup k r = none := by
      rw [alistLookup_eq_none_iff]
      exact h
    simp [hr, alistLookup]

/-- Upserting one key leaves lookups of any other key unchanged. -/
theorem alistLookup_upsert_ne (r : List (String × String)) (k k' v : String)
    (hne : k' ≠ k) : alistLookup k (upsert r k' v) = alistLookup k r := by
  unfold upsert
  split_ifs with h
  · exact alistLookup_map_overwrite r k k' v hne
  · rw [alistLookup_append]
    have : alistLookup k [(k', v)] = none := by simp [alistLookup, hne]
    rw [this]
    cases alistLookup k r <;> rfl

/-- A successful lookup witnesses a non-empty list. -/
theorem ne_nil_of_alistLookup_some (r : List (String × String)) (k v : String)
    (h : alistLookup k r = some v) : r ≠ [] := by
  intro hr
  rw [hr] at h
  simp [alistLookup] at h

/-- If running a call chain succeeds, every call in it succeeded. -/
theorem faults_none_of_runCalls_ok (faults : Faults) (cs : List Call)
    (h : runCalls faults cs = Except.ok ()) : ∀ c ∈ cs, faults c = none := by
  induction cs with
  | nil => intro c hc; simp at hc
  | cons a cs ih =>
    intro c hc
    rw [runCalls] at h
    rcases hca : faults a with _ | e
    · rcases List.mem_cons.mp hc with h1 | h1
      · rw [h1, hca]
      · rw [hca] at h
        exact ih h c h1
    · rw [hca] at h
      exact absurd h (by simp)

/-- If running a call chain fails with message `e`, some call in the chain
raised exactly `e`: the message propagates unmodified. -/
theorem exists_fault_of_runCalls_error (faults : Faults) (cs : List Call)
    (e : String) (h : runCalls faults cs = Except.error e) :
    ∃ c ∈ cs, faults c = some e := by
  induction cs with
  | nil => rw [runCalls] at h; exact absurd h (by simp)
  | cons a cs ih =>
    rw [runCalls] at h
    rcases hca : faults a with _ | e'
    · rw [hca] at h
      obtain ⟨c, hc, hfc⟩ := ih h
      exact ⟨c, List.mem_cons_of_mem a hc, hfc⟩
    · rw [hca] at h
      refine ⟨a, List.mem_cons_self a cs, ?_⟩
      rw [hca]
      simpa using h

/-- Case equation: `state=present`, no record found, not check mode. -/
theorem ensure_present_notfound (p : Params) (s : Server)
    (h1 : p.state = "present") (h2 : dnsrecord_find_result s = [])
    (h3 : p.check_mode = false) :
    ensure p s = EnsureResult.mk true
      (dnsrecord_find_result
        (server_add (dnsrecord_add_item p.record_name ⟨p.record_type, p.record_ip⟩)))
      (server_add (dnsrecord_add_item p.record_name ⟨p.record_type, p.record_ip⟩))
      [Call.find p.zone_name p.record_name,
        Call.add p.zone_name (dnsrecord_add_item p.record_name ⟨p.record_type, p.record_ip⟩),
        Call.find p.zone_name p.record_name] := by
  simp [ensure, h1, h2, h3]

/-- Case equation: `state=present`, record found, empty diff (any mode). -/
theorem ensure_present_noop (p : Params) (s : Server)
    (h1 : p.state = "present") (h2 : dnsrecord_find_result s ≠ [])
    (h4 : get_dnsrecord_diff (dnsrecord_find_result s) ⟨p.record_type, p.record_ip⟩ = []) :
    ensure p s = EnsureResult.mk false (dnsrecord_find_result s) s
      [Call.find p.zone_name p.record_name,
        Call.find p.zone_name p.record_name] := by
  simp [ensure, h1, h2, h4]

/-- Case equation: `state=present`, record found, non-empty diff, not check
mode. -/
theorem ensure_present_differing (p : Params) (s : Server)
    (h1 : p.state = "present") (h2 : dnsrecord_find_result s ≠ [])
    (h4 : get_dnsrecord_diff (dnsrecord_find_result s) ⟨p.record_type, p.record_ip⟩ ≠ [])
    (h3 : p.check_mode = false) :
    ensure p s = EnsureResult.mk true
      (dnsrecord_find_result
        (server_mod s (dnsrecord_mod_item p.record_name ⟨p.record_type, p.record_ip⟩)))
      (server_mod s (dnsrecord_mod_item p.record_name ⟨p.record_type, p.record_ip⟩))
      [Call.find p.zone_name p.record_name,
        Call.mod p.zone_name (dnsrecord_mod_item p.record_name ⟨p.record_type, p.record_ip⟩),
        Call.find p.zone_name p.record_name] := by
  simp [ensure, h1, h2, h3, h4, List.length_pos]

/-- Case equation: the else branch (`state` other than present), record
found, not check mode. -/
theorem ensure_absent_found (p : Params) (s : Server)
    (h1 : p.state ≠ "present") (h2 : dnsrecord_find_result s ≠ [])
    (h3 : p.check_mode = false) :
    ensure p s = EnsureResult.mk true (dnsrecord_find_result server_del) server_del
      [Call.find p.zone_name p.record_name,
        Call.del p.zone_name (dnsrecord_del_item p.record_name ⟨p.record_type, p.record_ip⟩),
        Call.find p.zone_name p.record_name] := by
  simp [ensure, h1, h2, h3]

/-- Case equation: the else branch (`state` other than present), no record
found (any mode). -/
theorem ensure_absent_notfound (p : Params) (s : Server)
    (h1 : p.state ≠ "present") (h2 : dnsrecord_find_result s = []) :
    ensure p s = EnsureResult.mk false (dnsrecord_find_result s) s
      [Call.find p.zone_name p.record_name,
        Call.find p.zone_name p.record_name] := by
  simp [ensure, h1, h2]

/-- In check mode the server is untouched, the returned record is the
initial find result, and only the two find calls are issued. -/
theorem ensure_check_mode_eq (p : Params) (s : Server) (hcm : p.check_mode = true) :
    ensure p s = EnsureResult.mk (ensure p s).changed (dnsrecord_find_result s) s
      [Call.find p.zone_name p.record_name,
        Call.find p.zone_name p.record_name] := by
  by_cases h1 : p.state = "present"
  · by_cases h2 : dnsrecord_find_result s = []
    · simp [ensure, h1, h2, hcm]
    · by_cases h4 : get_dnsrecord_diff (dnsrecord_find_result s)
          ⟨p.record_type, p.record_ip⟩ = []
      · simp [ensure, h1, h2, h4]
      · simp [ensure, h1, h2, h4, hcm, List.length_pos]
  · by_cases h2 : dnsrecord_find_result s = []
    · simp [ensure, h1, h2]
    · simp [ensure, h1, h2, hcm]

/-- The `changed` flag does not depend on the check-mode flag. -/
theorem ensure_changed_check_mode (p : Params) (s : Server) :
    (ensure {p with check_mode := true} s).changed =
      (ensure {p with check_mode := false} s).changed := by
  by_cases h1 : p.state = "present"
  · by_cases h2 : dnsrecord_find_result s = []
    · simp [ensure, h1, h2]
    · by_cases h4 : get_dnsrecord_diff (dnsrecord_find_result s)
          ⟨p.record_type, p.record_ip⟩ = []
      · simp [ensure, h1, h2, h4]
      · simp [ensure, h1, h2, h4, List.length_pos]
  · by_cases h2 : dnsrecord_find_result s = []
    · simp [ensure, h1, h2]
    · simp [ensure, h1, h2]

/-- An empty storage-field translation makes every diff empty. -/
theorem get_dnsrecord_diff_nil_of_dict_nil (r : List (String × String))
    (d : ModuleDnsrecord) (h : get_dnsrecord_dict d = []) :
    get_dnsrecord_diff r d = [] := by
  simp [get_dnsrecord_diff, h, get_diff]

/-- After an add built from `dnsrecord_add_item`, the record is found and
its diff against the same desired record is empty. -/
theorem server_add_stabilizes (record_name : String) (d : ModuleDnsrecord) :
    dnsrecord_find_result (server_add (dnsrecord_add_item record_name d)) ≠ [] ∧
    get_dnsrecord_diff
      (dnsrecord_find_result (server_add (dnsrecord_add_item record_name d))) d = [] := by
  constructor
  · simp [server_add, dnsrecord_find_result, dnsrecord_add_item]
  · by_cases hA : d.record_type = "A"
    · by_cases hip : d.record_ip = ""
      · exact get_dnsrecord_diff_nil_of_dict_nil _ d
          (by simp [get_dnsrecord_dict, hip])
      · simp [server_add, dnsrecord_find_result, dnsrecord_add_item, hA,
          get_dnsrecord_diff, get_dnsrecord_dict, hip, get_diff, alistLookup,
          storageFieldOfAddField]
    · by_cases hAAAA : d.record_type = "AAAA"
      · by_cases hip : d.record_ip = ""
        · exact get_dnsrecord_diff_nil_of_dict_nil _ d
            (by simp [get_dnsrecord_dict, hip])
        · simp [server_add, dnsrecord_find_result, dnsrecord_add_item, hA, hAAAA,
            get_dnsrecord_diff, get_dnsrecord_dict, hip, get_diff, alistLookup,
            storageFieldOfAddField]
      · exact get_dnsrecord_diff_nil_of_dict_nil _ d
          (by simp [get_dnsrecord_dict, hA, hAAAA])

/-- After a modify built from `dnsrecord_mod_item` whose storage translation
is non-empty, the record is found and its diff against the same desired
record is empty. -/
theorem server_mod_stabilizes (record_name : String) (d : ModuleDnsrecord)
    (r : List (String × String)) (hd : get_dnsrecord_dict d ≠ []) :
    dnsrecord_find_result (server_mod (some r) (dnsrecord_mod_item record_name d)) ≠ [] ∧
    get_dnsrecord_diff
      (dnsrecord_find_result (server_mod (some r) (dnsrecord_mod_item record_name d))) d
      = [] := by
  unfold get_dnsrecord_dict at hd
  split_ifs at hd with hA hAAAA
  · obtain ⟨hty, hip⟩ := hA
    have hitem : dnsrecord_mod_item record_name d =
        [("arecord", d.record_ip), ("idnsname", record_name)] := by
      simp [dnsrecord_mod_item, get_dnsrecord_dict, hty, hip]
    have hupd : updateAll r [("arecord", d.record_ip), ("idnsname", record_name)] =
        upsert (upsert r "arecord" d.record_ip) "idnsname" record_name := by
      simp [updateAll]
    have hlook : alistLookup "arecord"
        (upsert (upsert r "arecord" d.record_ip) "idnsname" record_name) =
        some d.record_ip := by
      rw [alistLookup_upsert_ne _ _ _ _ (by decide)]
      exact alistLookup_upsert_self _ _ _
    constructor
    · simp only [hitem, server_mod, dnsrecord_find_result, Option.getD_some, hupd]
      exact ne_nil_of_alistLookup_some _ _ _ hlook
    · simp only [hitem, server_mod, dnsrecord_find_result, Option.getD_some, hupd]
      simp [get_dnsrecord_diff, get_dnsrecord_dict, hty, hip, get_diff, hlook]
  · obtain ⟨hty, hip⟩ := hAAAA
    have hitem : dnsrecord_mod_item record_name d =
        [("aaaarecord", d.record_ip), ("idnsname", record_name)] := by
      simp [dnsrecord_mod_item, get_dnsrecord_dict, hty, hip, hA]
    have hupd : updateAll r [("aaaarecord", d.record_ip), ("idnsname", record_name)] =
        upsert (upsert r "aaaarecord" d.record_ip) "idnsname" record_name := by
      simp [updateAll]
    have hlook : alistLookup "aaaarecord"
        (upsert (upsert r "aaaarecord" d.record_ip) "idnsname" record_name) =
        some d.record_ip := by
      rw [alistLookup_upsert_ne _ _ _ _ (by decide)]
      exact alistLookup_upsert_self _ _ _
    constructor
    · simp only [hitem, server_mod, dnsrecord_find_result, Option.getD_some, hupd]
      exact ne_nil_of_alistLookup_some _ _ _ hlook
    · simp only [hitem, server_mod, dnsrecord_find_result, Option.getD_some, hupd]
      simp [get_dnsrecord_diff, get_dnsrecord_dict, hty, hip, hA, get_diff, hlook]
  · exact absurd rfl hd

/-- After any non-check `state=present` run, the record is found and its
diff against the same desired record is empty. -/
theorem ensure_present_stabilizes (p : Params) (s : Server)
    (h1 : p.state = "present") (h3 : p.check_mode = false) :
    dnsrecord_find_result (ensure p s).server ≠ [] ∧
    get_dnsrecord_diff (dnsrecord_find_result (ensure p s).server)
      ⟨p.record_type, p.record_ip⟩ = [] := by
  by_cases h2 : dnsrecord_find_result s = []
  · rw [ensure_present_notfound p s h1 h2 h3]
    exact server_add_stabilizes p.record_name ⟨p.record_type, p.record_ip⟩
  · by_cases h4 : get_dnsrecord_diff (dnsrecord_find_result s)
        ⟨p.record_type, p.record_ip⟩ = []
    · rw [ensure_present_noop p s h1 h2 h4]
      exact ⟨h2, h4⟩
    · rw [ensure_present_differing p s h1 h2 h4 h3]
      obtain ⟨r, hr⟩ : ∃ r, s = some r := by
        cases s with
        | none => exact absurd rfl h2
        | some r => exact ⟨r, rfl⟩
      have hd : get_dnsrecord_dict (⟨p.record_type, p.record_ip⟩ : ModuleDnsrecord) ≠ [] := by
        intro hnil
        exact h4 (get_dnsrecord_diff_nil_of_dict_nil _ _ hnil)
      rw [hr]
      exact server_mod_stabilizes p.record_name ⟨p.record_type, p.record_ip⟩ r hd

/-- The call trace of any `ensure` run is the initial find, then its
mutating calls (at most one), then the final find. -/
theorem ensure_calls_shape (p : Params) (s : Server) :
    (ensure p s).calls = Call.find p.zone_name p.record_name ::
      (mutatingCalls (ensure p s).calls ++ [Call.find p.zone_name p.record_name]) ∧
    (mutatingCalls (ensure p s).calls).length ≤ 1 := by
  by_cases hcm : p.check_mode = true
  · rw [ensure_check_mode_eq p s hcm]
    simp [mutatingCalls, Call.isMut]
  · have h3 : p.check_mode = false := by simpa using hcm
    by_cases h1 : p.state = "present"
    · by_cases h2 : dnsrecord_find_result s = []
      · rw [ensure_present_notfound p s h1 h2 h3]
        simp [mutatingCalls, Call.isMut]
      · by_cases h4 : get_dnsrecord_diff (dnsrecord_find_result s)
            ⟨p.record_type, p.record_ip⟩ = []
        · rw [ensure_present_noop p s h1 h2 h4]
          simp [mutatingCalls, Call.isMut]
        · rw [ensure_present_differing p s h1 h2 h4 h3]
          simp [mutatingCalls, Call.isMut]
    · by_cases h2 : dnsrecord_find_result s = []
      · rw [ensure_absent_notfound p s h1 h2]
        simp [mutatingCalls, Call.isMut]
      · rw [ensure_absent_found p s h1 h2 h3]
        simp [mutatingCalls, Call.isMut]

/-- A non-check run that reports a change has issued a mutating call. -/
theorem exists_mut_call_of_changed (p : Params) (s : Server)
    (hcm : p.check_mode = false) (hch : (ensure p s).changed = true) :
    ∃ c ∈ (ensure p s).calls, c.isMut = true := by
  by_cases h1 : p.state = "present"
  · by_cases h2 : dnsrecord_find_result s = []
    · rw [ensure_present_notfound p s h1 h2 hcm]
      exact ⟨Call.add p.zone_name
        (dnsrecord_add_item p.record_name ⟨p.record_type, p.record_ip⟩),
        by simp, rfl⟩
    · by_cases h4 : get_dnsrecord_diff (dnsrecord_find_result s)
          ⟨p.record_type, p.record_ip⟩ = []
      · rw [ensure_present_noop p s h1 h2 h4] at hch
        exact absurd hch (by simp)
      · rw [ensure_present_differing p s h1 h2 h4 hcm]
        exact ⟨Call.mod p.zone_name
          (dnsrecord_mod_item p.record_name ⟨p.record_type, p.record_ip⟩),
          by simp, rfl⟩
  · by_cases h2 : dnsrecord_find_result s = []
    · rw [ensure_absent_notfound p s h1 h2] at hch
      exact absurd hch (by simp)
    · rw [ensure_absent_found p s h1 h2 hcm]
      exact ⟨Call.del p.zone_name
        (dnsrecord_del_item p.record_name ⟨p.record_type, p.record_ip⟩),
        by simp, rfl⟩

/-- C1: for every non-check invocation of `ensure`, the state-transition
table holds: no record and `state=present` issues an add with
`changed=true`; a record with empty diff and `state=present` issues no
mutating call with `changed=false`; a record with non-empty diff and
`state=present` issues a modify with `changed=true`; a record with
`state=absent` issues a delete with `changed=true`; no record and
`state=absent` issues no mutating call with `changed=false`. -/
theorem ensure_transition_table (p : Params) (s : Server)
    (hcm : p.check_mode = false) :
    (p.state = "present" → dnsrecord_find_result s = [] →
      (ensure p s).changed = true ∧
      mutatingCalls (ensure p s).calls =
        [Call.add p.zone_name
          (dnsrecord_add_item p.record_name ⟨p.record_type, p.record_ip⟩)]) ∧
    (p.state = "present" → dnsrecord_find_result s ≠ [] →
      get_dnsrecord_diff (dnsrecord_find_result s) ⟨p.record_type, p.record_ip⟩ = [] →
      (ensure p s).changed = false ∧ mutatingCalls (ensure p s).calls = []) ∧
    (p.state = "present" → dnsrecord_find_result s ≠ [] →
      get_dnsrecord_diff (dnsrecord_find_result s) ⟨p.record_type, p.record_ip⟩ ≠ [] →
      (ensure p s).changed = true ∧
      mutatingCalls (ensure p s).calls =
        [Call.mod p.zone_name
          (dnsrecord_mod_item p.record_name ⟨p.record_type, p.record_ip⟩)]) ∧
    (p.state = "absent" → dnsrecord_find_result s ≠ [] →
      (ensure p s).changed = true ∧
      mutatingCalls (ensure p s).calls =
        [Call.del p.zone_name
          (dnsrecord_del_item p.record_name ⟨p.record_type, p.record_ip⟩)]) ∧
    (p.state = "absent" → dnsrecord_find_result s = [] →
      (ensure p s).changed = false ∧ mutatingCalls (ensure p s).calls = []) := by
  refine ⟨?_, ?_, ?_, ?_, ?_⟩
  · intro h1 h2
    rw [ensure_present_notfound p s h1 h2 hcm]
    simp [mutatingCalls, Call.isMut]
  · intro h1 h2 h4
    rw [ensure_present_noop p s h1 h2 h4]
    simp [mutatingCalls, Call.isMut]
  · intro h1 h2 h4
    rw [ensure_present_differing p s h1 h2 h4 hcm]
    simp [mutatingCalls, Call.isMut]
  · intro h1 h2
    have h1' : p.state ≠ "present" := by rw [h1]; decide
    rw [ensure_absent_found p s h1' h2 hcm]
    simp [mutatingCalls, Call.isMut]
  · intro h1 h2
    have h1' : p.state ≠ "present" := by rw [h1]; decide
    rw [ensure_absent_notfound p s h1' h2]
    simp [mutatingCalls, Call.isMut]

/-- Witness for C1: for zone `example.com`, record `vm-001`, type AAAA,
address `::1`, `state=present` and an absent record, the run reports a
change and issues exactly the add call. -/
theorem ensure_transition_table_witness :
    (ensure ⟨"example.com", "vm-001", "AAAA", "::1", "present", false⟩ none).changed
      = true ∧
    mutatingCalls
      (ensure ⟨"example.com", "vm-001", "AAAA", "::1", "present", false⟩ none).calls =
      [Call.add "example.com" (dnsrecord_add_item "vm-001" ⟨"AAAA", "::1"⟩)] :=
  (ensure_transition_table
    ⟨"example.com", "vm-001", "AAAA", "::1", "present", false⟩ none rfl).1 rfl rfl

/-- C9: with `state=absent` and an initial find returning no record, the
reconciler issues no mutating call, reports `changed=false`, and leaves the
server untouched. -/
theorem ensure_absent_no_record_noop (p : Params) (s : Server)
    (h1 : p.state = "absent") (h2 : dnsrecord_find_result s = []) :
    (ensure p s).changed = false ∧
    mutatingCalls (ensure p s).calls = [] ∧
    (ensure p s).server = s := by
  have h1' : p.state ≠ "present" := by rw [h1]; decide
  rw [ensure_absent_notfound p s h1' h2]
  simp [mutatingCalls, Call.isMut]

/-- Witness for C9: a concrete absent-state run against an empty server. -/
theorem ensure_absent_no_record_noop_witness :
    (ensure ⟨"example.com", "host01", "A", "1.2.3.4", "absent", false⟩ none).changed
      = false ∧
    mutatingCalls
      (ensure ⟨"example.com", "host01", "A", "1.2.3.4", "absent", false⟩ none).calls
      = [] ∧
    (ensure ⟨"example.com", "host01", "A", "1.2.3.4", "absent", false⟩ none).server
      = none :=
  ensure_absent_no_record_noop
    ⟨"example.com", "host01", "A", "1.2.3.4", "absent", false⟩ none rfl rfl

/-- C10: a falsy (empty) `record_ip` makes `get_dnsrecord_dict` empty even
for types A and AAAA; hence with `state=present` and any existing record
the diff is empty, so no modify is issued and `changed=false`; and the
delete request item carries only `idnsname`, with no address field. -/
theorem empty_record_ip_consequences (p : Params) (s : Server) (n : String)
    (hip : p.record_ip = "") :
    get_dnsrecord_dict ⟨p.record_type, p.record_ip⟩ = [] ∧
    (p.state = "present" → dnsrecord_find_result s ≠ [] →
      (ensure p s).changed = false ∧ mutatingCalls (ensure p s).calls = []) ∧
    dnsrecord_del_item n ⟨p.record_type, p.record_ip⟩ = [("idnsname", n)] := by
  have hdict : get_dnsrecord_dict ⟨p.record_type, p.record_ip⟩ = [] := by
    simp [get_dnsrecord_dict, hip]
  refine ⟨hdict, ?_, ?_⟩
  · intro h1 h2
    have h4 : get_dnsrecord_diff (dnsrecord_find_result s)
        ⟨p.record_type, p.record_ip⟩ = [] :=
      get_dnsrecord_diff_nil_of_dict_nil _ _ hdict
    rw [ensure_present_noop p s h1 h2 h4]
    simp [mutatingCalls, Call.isMut]
  · simp [dnsrecord_del_item, hdict]

/-- Witness for C10: type A with an empty address, against a server holding
a differing record: the translation is empty, the present-state run is a
no-op, and the delete item is bare. -/
theorem empty_record_ip_consequences_witness :
    get_dnsrecord_dict ⟨"A", ""⟩ = [] ∧
    ((ensure ⟨"example.com", "host01", "A", "", "present", false⟩
        (some [("idnsname", "host01"), ("arecord", "9.9.9.9")])).changed = false ∧
      mutatingCalls (ensure ⟨"example.com", "host01", "A", "", "present", false⟩
        (some [("idnsname", "host01"), ("arecord", "9.9.9.9")])).calls = []) ∧
    dnsrecord_del_item "host01" ⟨"A", ""⟩ = [("idnsname", "host01")] := by
  have h := empty_record_ip_consequences
    ⟨"example.com", "host01", "A", "", "present", false⟩
    (some [("idnsname", "host01"), ("arecord", "9.9.9.9")]) "host01" rfl
  exact ⟨h.1, h.2.1 rfl (by decide), h.2.2⟩

/-- C4: the add request item is always `idnsname=record_name` plus
`a_part_ip_address` for type A and `aaaa_part_ip_address` for type AAAA;
in particular, for zone `example.com`, record `vm-001`, type AAAA and
address `::1` with no existing record, the add item is exactly
`idnsname=vm-001, aaaa_part_ip_address=::1` and the result is
`changed=true`. -/
theorem dnsrecord_add_item_conventions :
    (∀ (n : String) (d : ModuleDnsrecord), d.record_type = "A" →
      dnsrecord_add_item n d =
        [("idnsname", n), ("a_part_ip_address", d.record_ip)]) ∧
    (∀ (n : String) (d : ModuleDnsrecord), d.record_type = "AAAA" →
      dnsrecord_add_item n d =
        [("idnsname", n), ("aaaa_part_ip_address", d.record_ip)]) ∧
    ((ensure ⟨"example.com", "vm-001", "AAAA", "::1", "present", false⟩ none).changed
        = true ∧
      mutatingCalls
        (ensure ⟨"example.com", "vm-001", "AAAA", "::1", "present", false⟩ none).calls
        = [Call.add "example.com"
            [("idnsname", "vm-001"), ("aaaa_part_ip_address", "::1")]]) := by
  refine ⟨?_, ?_, by decide, by decide⟩
  · intro n d h
    simp [dnsrecord_add_item, h]
  · intro n d h
    simp [dnsrecord_add_item, h]

/-- Witness for C4: the AAAA convention at a concrete input. -/
theorem dnsrecord_add_item_conventions_witness :
    dnsrecord_add_item "vm-001" ⟨"AAAA", "::1"⟩ =
      [("idnsname", "vm-001"), ("aaaa_part_ip_address", "::1")] :=
  dnsrecord_add_item_conventions.2.1 "vm-001" ⟨"AAAA", "::1"⟩ rfl

/-- C5: the modify and delete request items both follow the storage-field
convention (`arecord`/`aaaarecord` plus `idnsname`, never the add-time part
fields), and for identical inputs the two items are identical. -/
theorem dnsrecord_mod_del_convention (record_name : String) (d : ModuleDnsrecord) :
    dnsrecord_mod_item record_name d = dnsrecord_del_item record_name d ∧
    ("idnsname", record_name) ∈ dnsrecord_mod_item record_name d ∧
    (∀ f v, (f, v) ∈ dnsrecord_mod_item record_name d →
      f = "arecord" ∨ f = "aaaarecord" ∨ f = "idnsname") ∧
    (d.record_type = "A" → d.record_ip ≠ "" →
      dnsrecord_mod_item record_name d =
        [("arecord", d.record_ip), ("idnsname", record_name)]) ∧
    (d.record_type = "AAAA" → d.record_ip ≠ "" →
      dnsrecord_mod_item record_name d =
        [("aaaarecord", d.record_ip), ("idnsname", record_name)]) := by
  refine ⟨rfl, ?_, ?_, ?_, ?_⟩
  · simp [dnsrecord_mod_item]
  · intro f v hm
    unfold dnsrecord_mod_item get_dnsrecord_dict at hm
    split_ifs at hm <;> simp at hm <;> tauto
  · intro h1 h2
    simp [dnsrecord_mod_item, get_dnsrecord_dict, h1, h2]
  · intro h1 h2
    simp [dnsrecord_mod_item, get_dnsrecord_dict, h1, h2]

/-- Witness for C5: the AAAA storage convention at a concrete input. -/
theorem dnsrecord_mod_del_convention_witness :
    dnsrecord_mod_item "host01" ⟨"AAAA", "::1"⟩ =
      [("aaaarecord", "::1"), ("idnsname", "host01")] :=
  (dnsrecord_mod_del_convention "host01" ⟨"AAAA", "::1"⟩).2.2.2.2 rfl (by decide)

/-- C6 counterexample: with type A and an empty (falsy) address,
`get_dnsrecord_dict` returns the empty mapping, not `arecord` bound to the
address, so the claimed unconditional translation fails. -/
theorem get_dnsrecord_dict_empty_ip_counterexample :
    get_dnsrecord_dict ⟨"A", ""⟩ = [] ∧
    get_dnsrecord_dict ⟨"A", ""⟩ ≠ [("arecord", "")] := by
  decide

/-- C6 (amended): `get_dnsrecord_dict` returns `arecord` bound to the
address for type A with a truthy (non-empty) address, `aaaarecord` likewise
for type AAAA, and the empty mapping for any other type or for a falsy
address. -/
theorem get_dnsrecord_dict_cases (d : ModuleDnsrecord) :
    (d.record_type = "A" → d.record_ip ≠ "" →
      get_dnsrecord_dict d = [("arecord", d.record_ip)]) ∧
    (d.record_type = "AAAA" → d.record_ip ≠ "" →
      get_dnsrecord_dict d = [("aaaarecord", d.record_ip)]) ∧
    (d.record_type ≠ "A" → d.record_type ≠ "AAAA" →
      get_dnsrecord_dict d = []) ∧
    (d.record_ip = "" → get_dnsrecord_dict d = []) := by
  refine ⟨?_, ?_, ?_, ?_⟩
  · intro h1 h2
    simp [get_dnsrecord_dict, h1, h2]
  · intro h1 h2
    simp [get_dnsrecord_dict, h1, h2]
  · intro h1 h2
    simp [get_dnsrecord_dict, h1, h2]
  · intro h
    simp [get_dnsrecord_dict, h]

/-- Witness for C6 (amended): the A translation at a concrete input. -/
theorem get_dnsrecord_dict_cases_witness :
    get_dnsrecord_dict ⟨"A", "1.2.3.4"⟩ = [("arecord", "1.2.3.4")] :=
  (get_dnsrecord_dict_cases ⟨"A", "1.2.3.4"⟩).1 rfl (by decide)

/-- C2 counterexample: for an input whose non-check run mutates (first
conjunct), the check-mode run still issues the second find call — its trace
holds two find calls, so the second find is not skipped. -/
theorem ensure_check_mode_second_find_counterexample :
    mutatingCalls
      (ensure ⟨"example.com", "vm-001", "AAAA", "::1", "present", false⟩ none).calls
      ≠ [] ∧
    (ensure ⟨"example.com", "vm-001", "AAAA", "::1", "present", true⟩ none).calls =
      [Call.find "example.com" "vm-001", Call.find "example.com" "vm-001"] := by
  decide

/-- C2 (amended): for every input on which the non-check run issues a
mutating call, the check-mode run issues no mutating call, reports the same
`changed`, leaves the server untouched, and returns the pre-mutation find
result as its record; the second find call is still issued (against the
unchanged server), not skipped. -/
theorem ensure_check_mode_dry_run (p : Params) (s : Server)
    (_hmut : mutatingCalls (ensure {p with check_mode := false} s).calls ≠ []) :
    mutatingCalls (ensure {p with check_mode := true} s).calls = [] ∧
    (ensure {p with check_mode := true} s).changed =
      (ensure {p with check_mode := false} s).changed ∧
    (ensure {p with check_mode := true} s).record = dnsrecord_find_result s ∧
    (ensure {p with check_mode := true} s).server = s ∧
    (ensure {p with check_mode := true} s).calls =
      [Call.find p.zone_name p.record_name, Call.find p.zone_name p.record_name] := by
  have h := ensure_check_mode_eq {p with check_mode := true} s rfl
  refine ⟨?_, ensure_changed_check_mode p s, ?_, ?_, ?_⟩
  · rw [h]
    simp [mutatingCalls, Call.isMut]
  · rw [h]
  · rw [h]
  · rw [h]

/-- Witness for C2 (amended): a concrete mutating input in check mode. -/
theorem ensure_check_mode_dry_run_witness :
    mutatingCalls
      (ensure ⟨"example.com", "vm-001", "AAAA", "::1", "present", true⟩ none).calls
      = [] ∧
    (ensure ⟨"example.com", "vm-001", "AAAA", "::1", "present", true⟩ none).changed =
      (ensure ⟨"example.com", "vm-001", "AAAA", "::1", "present", false⟩ none).changed ∧
    (ensure ⟨"example.com", "vm-001", "AAAA", "::1", "present", true⟩ none).record =
      dnsrecord_find_result none ∧
    (ensure ⟨"example.com", "vm-001", "AAAA", "::1", "present", true⟩ none).server =
      none ∧
    (ensure ⟨"example.com", "vm-001", "AAAA", "::1", "present", true⟩ none).calls =
      [Call.find "example.com" "vm-001", Call.find "example.com" "vm-001"] :=
  ensure_check_mode_dry_run
    ⟨"example.com", "vm-001", "AAAA", "::1", "present", false⟩ none (by decide)

/-- C3 counterexample: (i) against a server already holding the matching
record, the first present-state call reports `changed=false`, not true;
(ii) in check mode the second call reports `changed=true` again, not false. -/
theorem ensure_twice_counterexample :
    (ensure ⟨"example.com", "vm-001", "AAAA", "::1", "present", false⟩
      (some [("idnsname", "vm-001"), ("aaaarecord", "::1")])).changed = false ∧
    (ensure ⟨"example.com", "vm-001", "AAAA", "::1", "present", true⟩
      (ensure ⟨"example.com", "vm-001", "AAAA", "::1", "present", true⟩
        none).server).changed = true := by
  decide

/-- C3 (amended): for every desired record with `state=present`, in a
non-check run, the second of two successive `ensure` calls reports
`changed=false` and leaves the server in the same final state as the first;
the first call reports `changed=true` exactly when the initial find returns
no record or the diff is non-empty. -/
theorem ensure_present_idempotent (p : Params) (s : Server)
    (h1 : p.state = "present") (hcm : p.check_mode = false) :
    (ensure p (ensure p s).server).changed = false ∧
    (ensure p (ensure p s).server).server = (ensure p s).server ∧
    ((ensure p s).changed = true ↔
      (dnsrecord_find_result s = [] ∨
        get_dnsrecord_diff (dnsrecord_find_result s)
          ⟨p.record_type, p.record_ip⟩ ≠ [])) := by
  obtain ⟨hne, hdiff⟩ := ensure_present_stabilizes p s h1 hcm
  have h2 := ensure_present_noop p (ensure p s).server h1 hne hdiff
  refine ⟨?_, ?_, ?_⟩
  · rw [h2]
  · rw [h2]
  · by_cases h2' : dnsrecord_find_result s = []
    · rw [ensure_present_notfound p s h1 h2' hcm]
      simp [h2']
    · by_cases h4 : get_dnsrecord_diff (dnsrecord_find_result s)
          ⟨p.record_type, p.record_ip⟩ = []
      · rw [ensure_present_noop p s h1 h2' h4]
        simp [h2', h4]
      · rw [ensure_present_differing p s h1 h2' h4 hcm]
        simp [h2', h4]

/-- Witness for C3 (amended): a concrete present-state pair of runs from an
empty server: the second run is a no-op and the first changed. -/
theorem ensure_present_idempotent_witness :
    (ensure ⟨"example.com", "vm-001", "AAAA", "::1", "present", false⟩
      (ensure ⟨"example.com", "vm-001", "AAAA", "::1", "present", false⟩
        none).server).changed = false ∧
    (ensure ⟨"example.com", "vm-001", "AAAA", "::1", "present", false⟩
      (ensure ⟨"example.com", "vm-001", "AAAA", "::1", "present", false⟩
        none).server).server =
      (ensure ⟨"example.com", "vm-001", "AAAA", "::1", "present", false⟩ none).server ∧
    ((ensure ⟨"example.com", "vm-001", "AAAA", "::1", "present", false⟩ none).changed
        = true ↔
      (dnsrecord_find_result (none : Server) = [] ∨
        get_dnsrecord_diff (dnsrecord_find_result (none : Server))
          ⟨"AAAA", "::1"⟩ ≠ [])) :=
  ensure_present_idempotent
    ⟨"example.com", "vm-001", "AAAA", "::1", "present", false⟩ none rfl rfl

/-- C8: every invocation's remote-call chain is strictly sequential: one
login, one initial find, at most one mutating call, one final find, at most
four calls in total and nothing else. -/
theorem invocation_sequential_chain (p : Params) (s : Server) :
    ∃ m : List Call,
      invocation_calls p s =
        Call.login :: Call.find p.zone_name p.record_name ::
          (m ++ [Call.find p.zone_name p.record_name]) ∧
      m.length ≤ 1 ∧
      (∀ c ∈ m, c.isMut = true) ∧
      (invocation_calls p s).length ≤ 4 := by
  obtain ⟨hshape, hlen⟩ := ensure_calls_shape p s
  refine ⟨mutatingCalls (ensure p s).calls, ?_, hlen, ?_, ?_⟩
  · rw [invocation_calls]
    conv_lhs => rw [hshape]
  · intro c hc
    exact List.of_mem_filter hc
  · rw [invocation_calls]
    conv_lhs => rw [hshape]
    simp only [List.length_cons, List.length_append, List.length_nil]
    omega

/-- Witness for C8: the chain of a concrete invocation stays within four
remote calls. -/
theorem invocation_sequential_chain_witness :
    (invocation_calls ⟨"example.com", "vm-001", "A", "1.2.3.4", "present", false⟩
      none).length ≤ 4 := by
  obtain ⟨m, h1, h2, h3, h4⟩ := invocation_sequential_chain
    ⟨"example.com", "vm-001", "A", "1.2.3.4", "present", false⟩ none
  exact h4

/-- C7: every failure raised by login or by any client call of the
invocation propagates unmodified to `main`'s handler: a login fault is
reported verbatim; a fault on any issued call forces a `fail_json` outcome
whose message is the message of a raised exception (never an
`exit_json`, so no fault is swallowed into a changed/record payload); a
reported success implies every issued call succeeded; every reported
failure message is the message of some issued call's exception; and in a
non-check run, `changed=true` is reported only when a mutating call was
issued and returned successfully. -/
theorem main_outcome_error_policy (faults : Faults) (p : Params) (s : Server) :
    (∀ e, faults Call.login = some e →
      main_outcome faults p s = Outcome.failJson e) ∧
    (∀ c ∈ invocation_calls p s, faults c ≠ none →
      ∃ e, main_outcome faults p s = Outcome.failJson e ∧
        ∃ c' ∈ invocation_calls p s, faults c' = some e) ∧
    (∀ ch rec, main_outcome faults p s = Outcome.exitJson ch rec →
      ∀ c ∈ invocation_calls p s, faults c = none) ∧
    (∀ e, main_outcome faults p s = Outcome.failJson e →
      ∃ c ∈ invocation_calls p s, faults c = some e) ∧
    (p.check_mode = false → ∀ rec,
      main_outcome faults p s = Outcome.exitJson true rec →
      ∃ c ∈ (ensure p s).calls, c.isMut = true ∧ faults c = none) := by
  refine ⟨?_, ?_, ?_, ?_, ?_⟩
  · intro e he
    rw [main_outcome, invocation_calls, runCalls, he]
  · intro c hc hfc
    rcases hrc : runCalls faults (invocation_calls p s) with e' | u
    · refine ⟨e', ?_, ?_⟩
      · rw [main_outcome, hrc]
      · exact exists_fault_of_runCalls_error faults _ e' hrc
    · exact absurd (faults_none_of_runCalls_ok faults _ (by rw [hrc]) c hc) hfc
  · intro ch rec h c hc
    rw [main_outcome] at h
    rcases hrc : runCalls faults (invocation_calls p s) with e' | u
    · rw [hrc] at h
      cases h
    · exact faults_none_of_runCalls_ok faults _ (by rw [hrc]) c hc
  · intro e h
    rw [main_outcome] at h
    rcases hrc : runCalls faults (invocation_calls p s) with e' | u
    · rw [hrc] at h
      cases h
      exact exists_fault_of_runCalls_error faults _ e hrc
    · rw [hrc] at h
      cases h
  · intro hcm rec h
    rw [main_outcome] at h
    rcases hrc : runCalls faults (invocation_calls p s) with e' | u
    · rw [hrc] at h
      cases h
    · rw [hrc] at h
      have hch : (ensure p s).changed = true := (Outcome.exitJson.inj h).1
      obtain ⟨c, hc, hmutc⟩ := exists_mut_call_of_changed p s hcm hch
      have hall := faults_none_of_runCalls_ok faults (invocation_calls p s)
        (by rw [hrc]) c (List.mem_cons_of_mem _ hc)
      exact ⟨c, hc, hmutc, hall⟩

/-- Witness for C7: a fault raised by the initial find call of a concrete
invocation forces a failure report carrying a raised message. -/
theorem main_outcome_error_policy_witness :
    ∃ e, main_outcome
        (fun c => if c = Call.find "example.com" "vm-001"
          then some "zone not found" else none)
        ⟨"example.com", "vm-001", "A", "1.2.3.4", "present", false⟩ none =
        Outcome.failJson e ∧
      ∃ c' ∈ invocation_calls
          ⟨"example.com", "vm-001", "A", "1.2.3.4", "present", false⟩ none,
        (fun c => if c = Call.find "example.com" "vm-001"
          then some "zone not found" else none) c' = some e :=
  (main_outcome_error_policy
    (fun c => if c = Call.find "example.com" "vm-001"
      then some "zone not found" else none)
    ⟨"example.com", "vm-001", "A", "1.2.3.4", "present", false⟩ none).2.1
    (Call.find "example.com" "vm-001") (by decide) (by decide)

end IpaDnsrecord
